import Mathlib

/-!
Verification development for the youtube-dlp GUI (`src/youtube_dlp_gui.cpp`).

The embedded fragments are:
* the output-line classifier of `readProcessOutput` (the regular expression
  `(\d+\.\d+)%` applied to each trimmed line, first match),
* the log-view rendering step of `readProcessOutput` (append vs. overwrite of
  the last line, driven by the `hasProgressLine` flag),
* the slots `processError` and `processFinished`,
* the part of `startDownload` that follows the URL / save-path checks: the
  `--dump-json` probe handling, the multi-video confirmation, and the
  assembly of the yt-dlp argument list.

Strings are modelled by Lean `String` / `List Char`; the Qt widgets that the
claims mention are modelled by a `UIState` record (log lines of the
`QTextEdit`, the `hasProgressLine` flag, the download button's text and
enabled state, and whether the `QProcess *process` member is non-null).
-/

namespace YtDlpGui

/-! ### Output classifier: the regex `(\d+\.\d+)%`, first match

`QRegularExpression::match` looks for the leftmost position at which the
pattern matches.  For the pattern `\d+\.\d+%` a greedy `\d+` followed by a
non-digit literal admits no backtracking, so a match attempt at a position
takes the maximal digit run, requires `'.'`, takes the maximal digit run,
and requires `'%'`.  `spanDigits` is that maximal digit run. -/

/-- Maximal leading run of decimal digits of a character list, paired with
the remainder (the behaviour of a greedy `\d+`). -/
def spanDigits : List Char → List Char × List Char
  | [] => ([], [])
  | c :: r =>
    if c.isDigit then
      let p := spanDigits r
      (c :: p.1, p.2)
    else ([], c :: r)

/-- Attempt to match `(\d+\.\d+)%` at the head of the list; returns the text
of capture group 1 (`\d+\.\d+`) on success.  The digit runs must be
nonempty (`\d+`), the first must be followed by `'.'` and the second by
`'%'`. -/
def tryPercent (l : List Char) : Option (List Char) :=
  match spanDigits l with
  | (c1 :: t1, '.' :: r2) =>
    match spanDigits r2 with
    | (c2 :: t2, '%' :: _) => some ((c1 :: t1) ++ '.' :: (c2 :: t2))
    | _ => none
  | _ => none

/-- First (leftmost) match of `(\d+\.\d+)%` in the list: the capture of
group 1, or `none` when the pattern matches nowhere
(`QRegularExpression::match` on the trimmed line). -/
def findPercent : List Char → Option (List Char)
  | [] => none
  | c :: r =>
    match tryPercent (c :: r) with
    | some m => some m
    | none => findPercent r

/-- Result of classifying one trimmed output line (spec §4.4). -/
inductive OutputLine where
  | ProgressUpdate (percentage : String)
  | PlainLine (text : String)
  deriving DecidableEq, Repr

/-- The Output Classifier: a trimmed line whose text matches `(\d+\.\d+)%`
somewhere becomes a `ProgressUpdate` carrying capture group 1 of the first
match; every other line is a `PlainLine` with the full trimmed text. -/
def classifyLine (trimmed : String) : OutputLine :=
  match findPercent trimmed.data with
  | some cap => .ProgressUpdate (String.mk cap)
  | none => .PlainLine trimmed

/-- Spec-level predicate, stated from the spec's words: the line contains a
substring that is a decimal number (digits, a dot, digits) immediately
followed by a percent sign. -/
def HasDecimalPercent (l : List Char) : Prop :=
  ∃ pre d1 d2 suf, l = pre ++ d1 ++ '.' :: (d2 ++ '%' :: suf) ∧
    d1 ≠ [] ∧ d2 ≠ [] ∧
    (∀ c ∈ d1, c.isDigit = true) ∧ (∀ c ∈ d2, c.isDigit = true)

/-- Spec-level predicate: the line contains a run of digits immediately
followed by a percent sign (an integer percentage). -/
def HasIntPercent (l : List Char) : Prop :=
  ∃ pre d suf, l = pre ++ d ++ '%' :: suf ∧ d ≠ [] ∧
    (∀ c ∈ d, c.isDigit = true)

/-! ### UI state and the rendering step of `readProcessOutput` -/

/-- The window state touched by the embedded slots: the paragraphs of the
`progressOutput` text edit, the `hasProgressLine` member, the download
button's label and enabled flag, and whether the `process` member is
non-null. -/
structure UIState where
  logLines : List String
  hasProgressLine : Bool
  buttonText : String
  buttonEnabled : Bool
  processActive : Bool
  deriving DecidableEq, Repr

/-- The separator line `"---------------------"` used around banners. -/
def sepLine : String := "---------------------"

/-- Body of the per-line loop of `readProcessOutput`: a line matching the
progress regex either overwrites the last displayed line (when
`hasProgressLine` is set) or is appended as a new `Progress:` line (setting
the flag); any other line is appended unchanged.  Note the flag is not
cleared in the plain-line branch. -/
def processLine (st : UIState) (trimmed : String) : UIState :=
  match findPercent trimmed.data with
  | some cap =>
    let progressText := "Progress: " ++ String.mk cap
    if st.hasProgressLine then
      { st with logLines := st.logLines.dropLast ++ [progressText] }
    else
      { st with logLines := st.logLines ++ [progressText], hasProgressLine := true }
  | none => { st with logLines := st.logLines ++ [trimmed] }

/-- `readProcessOutput` on a chunk already split into trimmed lines. -/
def processLines (st : UIState) (lines : List String) : UIState :=
  lines.foldl processLine st

/-- Modelled from the spec: the rendering contract of §4.4, as the spec
words it — consecutive `ProgressUpdate`s replace the previous progress
line, a `PlainLine` is always appended, and a `ProgressUpdate` following a
`PlainLine` starts a new line.  State: rendered lines plus whether the last
rendered line is a progress line. -/
def specRenderStep (acc : List String × Bool) (line : OutputLine) : List String × Bool :=
  match line with
  | .ProgressUpdate p =>
    if acc.2 then (acc.1.dropLast ++ ["Progress: " ++ p], true)
    else (acc.1 ++ ["Progress: " ++ p], true)
  | .PlainLine t => (acc.1 ++ [t], false)

/-- Modelled from the spec: render a whole sequence of classified lines
under the §4.4 contract. -/
def specRender (start : List String) (lines : List String) : List String :=
  (lines.foldl (fun acc t => specRenderStep acc (classifyLine t)) (start, false)).1

/-! ### `processError` and `processFinished` -/

/-- The `processError` slot: bracketed spawn-failure banner, button back to
its idle label and enabled, process handle released. -/
def processError (st : UIState) (errorString : String) : UIState :=
  { st with
    logLines := st.logLines ++
      [sepLine, "Failed to start download: " ++ errorString, sepLine],
    buttonText := "Download", buttonEnabled := true, processActive := false }

/-- The `processFinished` slot: bracketed completion banner chosen by the
exit code, button back to idle and enabled, process handle released. -/
def processFinished (st : UIState) (exitCode : Int) : UIState :=
  { st with
    logLines := st.logLines ++
      [sepLine, if exitCode = 0 then "Download Complete" else "Download Failed", sepLine],
    buttonText := "Download", buttonEnabled := true, processActive := false }

/-! ### Argument assembly (`startDownload`, lines 212–245) -/

/-- The five items of `videoQualityCombo`. -/
def videoQualityItems : List String :=
  ["4K (2160p)", "1080p", "720p", "480p", "None"]

/-- The three items of `audioQualityCombo`. -/
def audioQualityItems : List String := ["320kbps", "256kbps", "128kbps"]

/-- The eleven items of `subtitleLangCombo`. -/
def subtitleLangItems : List String :=
  ["None", "English (en)", "French (fr)", "Spanish (es)", "German (de)",
   "Italian (it)", "Portuguese (pt)", "Russian (ru)", "Japanese (ja)",
   "Chinese (zh)", "Arabic (ar)"]

/-- The characters before the first occurrence of the substring `sep`
(the whole list when `sep` does not occur): field 0 of `QString::split` /
`QString::section`. -/
def fieldBeforeSub (sep : List Char) : List Char → List Char
  | [] => []
  | c :: r => if sep.isPrefixOf (c :: r) then [] else c :: fieldBeforeSub sep r

/-- The characters after the first occurrence of the substring `sep`, or
`none` when `sep` does not occur. -/
def restAfterSub (sep : List Char) : List Char → Option (List Char)
  | [] => none
  | c :: r =>
    if sep.isPrefixOf (c :: r) then some (List.drop (sep.length - 1) r)
    else restAfterSub sep r

/-- `QString::split(sep).first()` and `QString::section(sep, 0, 0)`: the
text before the first occurrence of `sep`. -/
def fieldBefore (sep s : String) : String :=
  String.mk (fieldBeforeSub sep.data s.data)

/-- `QString::section(sep, 1, 1)`: the text between the first and second
occurrences of `sep` (up to the end when `sep` occurs once); the empty
string when `sep` does not occur (section index out of range). -/
def fieldBetween (sep s : String) : String :=
  match restAfterSub sep.data s.data with
  | none => ""
  | some r => String.mk (fieldBeforeSub sep.data r)

/-- `itemText(audioIndex).split("kbps").first()`: the text before the first
occurrence of `"kbps"` in the selected audio-quality item (`QComboBox::
itemText` yields the empty string for an out-of-range index). -/
def audioQualityFor (audioIndex : Nat) : String :=
  fieldBefore "kbps" (audioQualityItems.getD audioIndex "")

/-- `itemText(subIndex).section("(", 1, 1).section(")", 0, 0)`: the language
code between the parentheses of the selected subtitle item. -/
def subtitleLangFor (subIndex : Nat) : String :=
  fieldBefore ")" (fieldBetween "(" (subtitleLangItems.getD subIndex ""))

/-- The `switch (videoIndex)` assigning `videoFormat`; the guard
`videoIndex < 4` makes the default (empty) case unreachable. -/
def videoFormatFor : Nat → String
  | 0 => "bestvideo[height<=2160]+bestaudio/best"
  | 1 => "bestvideo[height<=1080]+bestaudio/best"
  | 2 => "bestvideo[height<=720]+bestaudio/best"
  | 3 => "bestvideo[height<=480]+bestaudio/best"
  | _ => ""

/-- `QString("%1/%(title)s.%(ext)s").arg(savePath)`: only `%1` is a place
marker, so the result is the save path followed by the literal template. -/
def outputTemplate (savePath : String) : String :=
  savePath ++ "/%(title)s.%(ext)s"

/-- The Argument Translator: the `args` list built by `startDownload` from
the save path, the combo indices, the SponsorBlock checkbox and the URL. -/
def buildArgs (savePath url : String) (videoIndex audioIndex subIndex : Nat)
    (sponsorChecked : Bool) : List String :=
  let args1 := ["-o", outputTemplate savePath]
  let args2 :=
    if videoIndex < 4 then
      args1 ++ ["-f", videoFormatFor videoIndex, "--merge-output-format", "mp4"]
    else
      args1 ++ ["-x", "--audio-format", "mp3", "--audio-quality",
                audioQualityFor audioIndex]
  let args3 :=
    if 0 < subIndex then
      args2 ++ ["--write-subs", "--sub-langs", subtitleLangFor subIndex]
    else args2
  let args4 :=
    if sponsorChecked then args3 ++ ["--sponsorblock-remove", "all"] else args3
  args4 ++ [url]

/-! ### The probe and launch part of `startDownload` (lines 168–253) -/

/-- Parsed view of the probe's stdout: `none` when
`QJsonDocument::fromJson` fails (`jsonDoc.isNull()`), otherwise the object's
`title` string (empty when absent) and, when the object has an `"entries"`
array, its length. -/
structure ProbeMeta where
  title : String
  entries : Option Nat
  deriving DecidableEq, Repr

/-- Outcome of the synchronous `--dump-json` probe process. -/
structure ProbeResult where
  exitCode : Int
  stderr : String
  json : Option ProbeMeta
  deriving DecidableEq, Repr

/-- A single-quote character (code point 39), used around the title in the
confirmation dialog. -/
def squote : String := String.singleton (Char.ofNat 39)

/-- The place-marker escapes of a string, in scan order
(`QString`'s `findArgEscapes`): a percent sign, an optional locale flag
`L`, then one or two decimal digits.  A percent sign not followed by a
marker is skipped and scanning resumes at the character after it (after
the `L` when one was consumed), so `"%%1"` contains marker 1. -/
def argEscapes : List Char → List Nat
  | [] => []
  | '%' :: 'L' :: c2 :: rest2 =>
    if c2.isDigit then
      match rest2 with
      | c3 :: rest3 =>
        if c3.isDigit then
          (10 * (c2.toNat - 48) + (c3.toNat - 48)) :: argEscapes rest3
        else (c2.toNat - 48) :: argEscapes (c3 :: rest3)
      | [] => [c2.toNat - 48]
    else argEscapes (c2 :: rest2)
  | '%' :: c1 :: rest1 =>
    if c1.isDigit then
      match rest1 with
      | c3 :: rest3 =>
        if c3.isDigit then
          (10 * (c1.toNat - 48) + (c3.toNat - 48)) :: argEscapes rest3
        else (c1.toNat - 48) :: argEscapes (c3 :: rest3)
      | [] => [c1.toNat - 48]
    else argEscapes (c1 :: rest1)
  | _ :: rest => argEscapes rest

/-- Replace every occurrence of the marker numbered `k` with `a`, copying
all other text — including markers with other numbers — verbatim
(`QString`'s `replaceArgEscapes`). -/
def replaceArgEscapes (k : Nat) (a : List Char) : List Char → List Char
  | [] => []
  | '%' :: 'L' :: c2 :: rest2 =>
    if c2.isDigit then
      match rest2 with
      | c3 :: rest3 =>
        if c3.isDigit then
          if 10 * (c2.toNat - 48) + (c3.toNat - 48) = k then
            a ++ replaceArgEscapes k a rest3
          else '%' :: 'L' :: c2 :: c3 :: replaceArgEscapes k a rest3
        else
          if c2.toNat - 48 = k then a ++ replaceArgEscapes k a (c3 :: rest3)
          else '%' :: 'L' :: c2 :: replaceArgEscapes k a (c3 :: rest3)
      | [] => if c2.toNat - 48 = k then a else ['%', 'L', c2]
    else '%' :: 'L' :: replaceArgEscapes k a (c2 :: rest2)
  | '%' :: c1 :: rest1 =>
    if c1.isDigit then
      match rest1 with
      | c3 :: rest3 =>
        if c3.isDigit then
          if 10 * (c1.toNat - 48) + (c3.toNat - 48) = k then
            a ++ replaceArgEscapes k a rest3
          else '%' :: c1 :: c3 :: replaceArgEscapes k a rest3
        else
          if c1.toNat - 48 = k then a ++ replaceArgEscapes k a (c3 :: rest3)
          else '%' :: c1 :: replaceArgEscapes k a (c3 :: rest3)
      | [] => if c1.toNat - 48 = k then a else ['%', c1]
    else '%' :: replaceArgEscapes k a (c1 :: rest1)
  | c :: rest => c :: replaceArgEscapes k a rest

/-- `QString::arg(a)`: find the lowest-numbered place marker present and
replace every occurrence of it (sequential `arg` calls therefore rescan
text substituted by earlier calls); when no marker is present the string
is returned unchanged (Qt warns "Argument missing").  Locale-flagged
occurrences receive the same replacement text, which for the integer
argument used below is its plain decimal form. -/
def qstringArg (s a : String) : String :=
  match (argEscapes s.data).min? with
  | none => s
  | some k => String.mk (replaceArgEscapes k a.data s.data)

/-- The format string of the "Multiple Videos Detected" warning dialog. -/
def multiConfirmTemplate : String :=
  "You are attempting to download " ++ squote ++ "%1" ++ squote ++
    " with %2 videos. Are you sure?"

/-- The text of the "Multiple Videos Detected" warning dialog: the format
string with `.arg(title)` applied first and `.arg(entries.size())`
second. -/
def multiConfirmMessage (title : String) (n : Nat) : String :=
  qstringArg (qstringArg multiConfirmTemplate title) (toString n)

/-- Result of running `startDownload` past the URL checks: the window state,
the argument list of the spawned download process (`none` when no process
was started), and the text of the confirmation dialog if one was shown. -/
structure StartResult where
  ui : UIState
  spawnedArgs : Option (List String)
  confirmDialog : Option String
  deriving DecidableEq, Repr

/-- `startDownload` from the `--dump-json` probe on: probe failure and
unparsable metadata append a bracketed banner and reset the button; an
`entries` array with more than one element asks for confirmation (declining
returns with nothing changed); otherwise the log is cleared, the button
disabled, and the download process started with the built arguments. -/
def startDownload (st : UIState) (url savePath : String) (probe : ProbeResult)
    (userConfirmsMulti : Bool) (videoIndex audioIndex subIndex : Nat)
    (sponsorChecked : Bool) : StartResult :=
  if probe.exitCode ≠ 0 then
    { ui := { st with
        logLines := st.logLines ++
          [sepLine, "Failed to get metadata: " ++ probe.stderr, sepLine],
        buttonText := "Download", buttonEnabled := true },
      spawnedArgs := none, confirmDialog := none }
  else
    match probe.json with
    | none =>
      { ui := { st with
          logLines := st.logLines ++
            [sepLine, "Invalid metadata from yt-dlp", sepLine],
          buttonText := "Download", buttonEnabled := true },
        spawnedArgs := none, confirmDialog := none }
    | some meta =>
      let dialog : Option String :=
        match meta.entries with
        | some n => if 1 < n then some (multiConfirmMessage meta.title n) else none
        | none => none
      let declined : Bool :=
        match meta.entries with
        | some n => if 1 < n then !userConfirmsMulti else false
        | none => false
      if declined then
        { ui := st, spawnedArgs := none, confirmDialog := dialog }
      else
        { ui := { st with
            logLines := ["Downloading URL: " ++ url],
            hasProgressLine := false,
            buttonText := "Downloading...", buttonEnabled := false,
            processActive := true },
          spawnedArgs :=
            some (buildArgs savePath url videoIndex audioIndex subIndex
                    sponsorChecked),
          confirmDialog := dialog }

/-- The button/process conditions every failure path must re-establish
(spec §7): idle label, enabled button, released process handle. -/
def ReadyForRetry (st : UIState) : Prop :=
  st.buttonText = "Download" ∧ st.buttonEnabled = true ∧ st.processActive = false

/-- Modelled from the spec: the documented pixel height cap of each
video-quality tier (2160/1080/720/480), indexed like `videoQualityCombo`. -/
def tierHeightCap : Nat → Nat :=
  fun i => [2160, 1080, 720, 480].getD i 0

/-- Modelled from the spec: the numeric value of each audio-bitrate choice
(320/256/128), indexed like `audioQualityCombo`. -/
def audioBitrateValue : Nat → Nat :=
  fun i => [320, 256, 128].getD i 0

/-! ## Lemmas about the classifier -/

theorem spanDigits_sound (l : List Char) :
    l = (spanDigits l).1 ++ (spanDigits l).2 ∧
    (∀ c ∈ (spanDigits l).1, c.isDigit = true) ∧
    (∀ c, (spanDigits l).2.head? = some c → c.isDigit = false) := by
  induction l with
  | nil => exact ⟨rfl, by simp [spanDigits], by simp [spanDigits]⟩
  | cons c t ih =>
    by_cases hc : c.isDigit = true
    · refine ⟨?_, ?_, ?_⟩
      · simp only [spanDigits, hc, if_true, List.cons_append]
        exact congrArg (List.cons c) ih.1
      · intro x hx
        simp only [spanDigits, hc, if_true] at hx
        rcases List.mem_cons.mp hx with h | h
        · exact h ▸ hc
        · exact ih.2.1 x h
      · intro x hx
        simp only [spanDigits, hc, if_true] at hx
        exact ih.2.2 x hx
    · refine ⟨?_, ?_, ?_⟩
      · simp [spanDigits, hc]
      · intro x hx
        simp [spanDigits, hc] at hx
      · intro x hx
        simp only [spanDigits, hc, if_false, Bool.false_eq_true, List.head?_cons,
          Option.some.injEq] at hx
        subst hx
        exact Bool.not_eq_true _ ▸ by simpa using hc

theorem spanDigits_append (d r : List Char)
    (hd : ∀ c ∈ d, c.isDigit = true)
    (hr : ∀ c, r.head? = some c → c.isDigit = false) :
    spanDigits (d ++ r) = (d, r) := by
  induction d with
  | nil =>
    cases r with
    | nil => rfl
    | cons c t =>
      have hc : c.isDigit = false := hr c rfl
      simp [spanDigits, hc]
  | cons c d' ih =>
    have hc : c.isDigit = true := hd c (List.mem_cons_self c d')
    have h' := ih (fun x hx => hd x (List.mem_cons_of_mem _ hx))
    simp [spanDigits, hc, h']

theorem tryPercent_nil : tryPercent [] = none := rfl

theorem tryPercent_sound {l m : List Char} (h : tryPercent l = some m) :
    ∃ d1 d2 suf, l = d1 ++ '.' :: (d2 ++ '%' :: suf) ∧ d1 ≠ [] ∧ d2 ≠ [] ∧
      (∀ c ∈ d1, c.isDigit = true) ∧ (∀ c ∈ d2, c.isDigit = true) ∧
      m = d1 ++ '.' :: d2 := by
  have hs := spanDigits_sound l
  unfold tryPercent at h
  split at h
  · rename_i c1 t1 r2 heq
    have hs2 := spanDigits_sound r2
    split at h
    · rename_i c2 t2 r3 heq2
      rw [Option.some.injEq] at h
      rw [heq] at hs
      rw [heq2] at hs2
      refine ⟨c1 :: t1, c2 :: t2, r3, ?_, by simp, by simp,
        hs.2.1, hs2.2.1, h.symm⟩
      rw [hs.1, hs2.1]
    · exact absurd h (by simp)
  · exact absurd h (by simp)

theorem tryPercent_complete (d1 d2 suf : List Char)
    (h1 : d1 ≠ []) (h2 : d2 ≠ [])
    (hd1 : ∀ c ∈ d1, c.isDigit = true) (hd2 : ∀ c ∈ d2, c.isDigit = true) :
    tryPercent (d1 ++ '.' :: (d2 ++ '%' :: suf)) = some (d1 ++ '.' :: d2) := by
  have e1 : spanDigits (d1 ++ '.' :: (d2 ++ '%' :: suf))
      = (d1, '.' :: (d2 ++ '%' :: suf)) := by
    refine spanDigits_append _ _ hd1 ?_
    intro c hc
    rw [List.head?_cons, Option.some.injEq] at hc
    subst hc
    rfl
  have e2 : spanDigits (d2 ++ '%' :: suf) = (d2, '%' :: suf) := by
    refine spanDigits_append _ _ hd2 ?_
    intro c hc
    rw [List.head?_cons, Option.some.injEq] at hc
    subst hc
    rfl
  obtain ⟨x, d1', rfl⟩ := List.exists_cons_of_ne_nil h1
  obtain ⟨y, d2', rfl⟩ := List.exists_cons_of_ne_nil h2
  simp only [tryPercent, e1, e2]

theorem findPercent_sound {l m : List Char} (h : findPercent l = some m) :
    ∃ k, tryPercent (l.drop k) = some m ∧
      ∀ j, j < k → tryPercent (l.drop j) = none := by
  induction l with
  | nil => simp [findPercent] at h
  | cons c t ih =>
    cases htry : tryPercent (c :: t) with
    | some m' =>
      simp only [findPercent, htry] at h
      refine ⟨0, ?_, by omega⟩
      rw [List.drop_zero, htry, h]
    | none =>
      simp only [findPercent, htry] at h
      obtain ⟨k, hk, hmin⟩ := ih h
      refine ⟨k + 1, by simpa using hk, ?_⟩
      intro j hj
      cases j with
      | zero => simpa using htry
      | succ j' => simpa using hmin j' (by omega)

theorem findPercent_complete (pre tail : List Char) {m : List Char}
    (h : tryPercent tail = some m) :
    (findPercent (pre ++ tail)).isSome := by
  induction pre with
  | nil =>
    cases tail with
    | nil => exact absurd h (by simp [tryPercent_nil])
    | cons c t => simp [findPercent, h]
  | cons c pre' ih =>
    rw [List.cons_append]
    cases htry : tryPercent (c :: (pre' ++ tail)) with
    | some m' => simp [findPercent, htry]
    | none => simpa [findPercent, htry] using ih

theorem hasDecimalPercent_iff (l : List Char) :
    HasDecimalPercent l ↔ (findPercent l).isSome := by
  constructor
  · rintro ⟨pre, d1, d2, suf, rfl, h1, h2, hd1, hd2⟩
    rw [List.append_assoc]
    exact findPercent_complete pre _ (tryPercent_complete d1 d2 suf h1 h2 hd1 hd2)
  · intro h
    obtain ⟨m, hm⟩ := Option.isSome_iff_exists.mp h
    obtain ⟨k, hk, -⟩ := findPercent_sound hm
    obtain ⟨d1, d2, suf, he, h1, h2, hd1, hd2, -⟩ := tryPercent_sound hk
    refine ⟨l.take k, d1, d2, suf, ?_, h1, h2, hd1, hd2⟩
    conv_lhs => rw [← List.take_append_drop k l, he]
    rw [List.append_assoc]

/-- Full description of a successful first match: the capture decomposes the
line, and no decomposition of the same shape starts earlier. -/
theorem findPercent_spec {l m : List Char} (h : findPercent l = some m) :
    ∃ pre d1 d2 suf, l = pre ++ d1 ++ '.' :: (d2 ++ '%' :: suf) ∧
      d1 ≠ [] ∧ d2 ≠ [] ∧
      (∀ c ∈ d1, c.isDigit = true) ∧ (∀ c ∈ d2, c.isDigit = true) ∧
      m = d1 ++ '.' :: d2 ∧
      (∀ pre' d1' d2' suf', l = pre' ++ d1' ++ '.' :: (d2' ++ '%' :: suf') →
        d1' ≠ [] → d2' ≠ [] → (∀ c ∈ d1', c.isDigit = true) →
        (∀ c ∈ d2', c.isDigit = true) → pre.length ≤ pre'.length) := by
  obtain ⟨k, hk, hmin⟩ := findPercent_sound h
  obtain ⟨d1, d2, suf, he, h1, h2, hd1, hd2, hm⟩ := tryPercent_sound hk
  have hkl : k < l.length := by
    by_contra hge
    rw [List.drop_eq_nil_of_le (by omega)] at he
    exact h1 (List.append_eq_nil.mp he.symm).1
  refine ⟨l.take k, d1, d2, suf, ?_, h1, h2, hd1, hd2, hm, ?_⟩
  · conv_lhs => rw [← List.take_append_drop k l, he]
    rw [List.append_assoc]
  · intro pre' d1' d2' suf' he' h1' h2' hd1' hd2'
    have htp : tryPercent (l.drop pre'.length) = some (d1' ++ '.' :: d2') := by
      have hl : l = pre' ++ (d1' ++ '.' :: (d2' ++ '%' :: suf')) := by
        rw [he', List.append_assoc]
      rw [hl, List.drop_left]
      exact tryPercent_complete d1' d2' suf' h1' h2' hd1' hd2'
    have hge : ¬ pre'.length < k := by
      intro hlt
      rw [hmin _ hlt] at htp
      exact Option.noConfusion htp
    rw [List.length_take]
    omega

/-! ## Lemmas about the confirmation-dialog format string -/

theorem argEscapes_cons_of_ne {c : Char} (hc : c ≠ '%') (l : List Char) :
    argEscapes (c :: l) = argEscapes l := by
  rw [argEscapes.eq_def]
  split <;> first | rfl | simp_all

theorem replaceArgEscapes_cons_of_ne {c : Char} (hc : c ≠ '%') (k : Nat)
    (a l : List Char) :
    replaceArgEscapes k a (c :: l) = c :: replaceArgEscapes k a l := by
  rw [replaceArgEscapes.eq_def]
  split <;> first | rfl | simp_all

theorem argEscapes_append (xs ys : List Char) (h : ∀ c ∈ xs, c ≠ '%') :
    argEscapes (xs ++ ys) = argEscapes ys := by
  induction xs with
  | nil => rfl
  | cons c xs ih =>
    rw [List.cons_append, argEscapes_cons_of_ne (h c (List.mem_cons_self c xs))]
    exact ih (fun d hd => h d (List.mem_cons_of_mem _ hd))

theorem replaceArgEscapes_append (k : Nat) (a xs ys : List Char)
    (h : ∀ c ∈ xs, c ≠ '%') :
    replaceArgEscapes k a (xs ++ ys) = xs ++ replaceArgEscapes k a ys := by
  induction xs with
  | nil => rfl
  | cons c xs ih =>
    rw [List.cons_append,
      replaceArgEscapes_cons_of_ne (h c (List.mem_cons_self c xs)),
      ih (fun d hd => h d (List.mem_cons_of_mem _ hd)), List.cons_append]

theorem qstringArg_eq (s a : String) {k : Nat}
    (h : (argEscapes s.data).min? = some k) :
    qstringArg s a = String.mk (replaceArgEscapes k a.data s.data) := by
  unfold qstringArg
  rw [h]

/-- When the substituted title contains no percent sign, the two `arg`
calls cannot interfere and the dialog text is the plain concatenation. -/
theorem multiConfirmMessage_no_marker (title : String) (n : Nat)
    (hp : ('%' : Char) ∉ title.data) :
    multiConfirmMessage title n
      = "You are attempting to download " ++ (squote ++ (title ++ (squote ++
          (" with " ++ (toString n ++ " videos. Are you sure?"))))) := by
  have hclean : ∀ c ∈ title.data, c ≠ '%' := fun c hc he => hp (he ▸ hc)
  have e1 : multiConfirmMessage title n
      = qstringArg (String.mk
          (("You are attempting to download " ++ squote).data ++
            (title.data ++ (squote ++ " with %2 videos. Are you sure?").data)))
          (toString n) := rfl
  have hmin : (argEscapes (String.mk
      (("You are attempting to download " ++ squote).data ++
        (title.data ++
          (squote ++ " with %2 videos. Are you sure?").data))).data).min?
      = some 2 := by
    show (argEscapes (("You are attempting to download " ++ squote).data ++
      (title.data ++
        (squote ++ " with %2 videos. Are you sure?").data))).min? = some 2
    rw [argEscapes_append ("You are attempting to download " ++ squote).data _
        (by decide),
      argEscapes_append title.data _ hclean]
    decide
  rw [e1, qstringArg_eq _ _ hmin]
  show String.mk (replaceArgEscapes 2 (toString n).data
      (("You are attempting to download " ++ squote).data ++
        (title.data ++ (squote ++ " with %2 videos. Are you sure?").data))) = _
  rw [replaceArgEscapes_append 2 (toString n).data
      ("You are attempting to download " ++ squote).data _ (by decide),
    replaceArgEscapes_append 2 (toString n).data title.data _ hclean]
  rfl

/-! ## Lemmas about the argument translator -/

theorem mem_ite_append {c : Prop} [Decidable c] {l ext : List String} {s : String}
    (h : s ∈ (if c then l ++ ext else l)) : s ∈ l ∨ s ∈ ext := by
  split at h
  · exact List.mem_append.mp h
  · exact Or.inl h

theorem outputTemplate_ne (sp s : String) (hs : s.length = 2) :
    outputTemplate sp ≠ s := by
  intro h
  have hlen := congrArg String.length h
  rw [outputTemplate, String.length_append] at hlen
  have h19 : ("/%(title)s.%(ext)s" : String).length = 18 := by decide
  omega

theorem videoFormatFor_default (j : Nat) : videoFormatFor (j + 4) = "" := rfl

theorem videoFormatFor_ne_flag : ∀ i, videoFormatFor i ≠ "-x" ∧ videoFormatFor i ≠ "-f"
  | 0 => by decide
  | 1 => by decide
  | 2 => by decide
  | 3 => by decide
  | (j + 4) => by rw [videoFormatFor_default]; exact ⟨by decide, by decide⟩

theorem audioQualityFor_default (j : Nat) : audioQualityFor (j + 3) = "" := by
  unfold audioQualityFor
  rw [List.getD_eq_default]
  · decide
  · have h3 : audioQualityItems.length = 3 := rfl
    omega

theorem audioQualityFor_ne_flag : ∀ i, audioQualityFor i ≠ "-x" ∧ audioQualityFor i ≠ "-f"
  | 0 => by decide
  | 1 => by decide
  | 2 => by decide
  | (j + 3) => by rw [audioQualityFor_default]; exact ⟨by decide, by decide⟩

theorem subtitleLangFor_default (j : Nat) : subtitleLangFor (j + 11) = "" := by
  unfold subtitleLangFor
  rw [List.getD_eq_default]
  · decide
  · have h11 : subtitleLangItems.length = 11 := rfl
    omega

theorem subtitleLangFor_ne_flag : ∀ i, subtitleLangFor i ≠ "-x" ∧ subtitleLangFor i ≠ "-f"
  | 0 => by decide
  | 1 => by decide
  | 2 => by decide
  | 3 => by decide
  | 4 => by decide
  | 5 => by decide
  | 6 => by decide
  | 7 => by decide
  | 8 => by decide
  | 9 => by decide
  | 10 => by decide
  | (j + 11) => by rw [subtitleLangFor_default]; exact ⟨by decide, by decide⟩

/-- Any member of the built argument list is one of the finitely many token
shapes, with the format tokens only in the matching quality branch. -/
theorem mem_buildArgs {s savePath url : String} {vi ai si : Nat} {sb : Bool}
    (h : s ∈ buildArgs savePath url vi ai si sb) :
    s = "-o" ∨ s = outputTemplate savePath ∨
    (vi < 4 ∧ (s = "-f" ∨ s = videoFormatFor vi ∨
      s = "--merge-output-format" ∨ s = "mp4")) ∨
    (¬ vi < 4 ∧ (s = "-x" ∨ s = "--audio-format" ∨ s = "mp3" ∨
      s = "--audio-quality" ∨ s = audioQualityFor ai)) ∨
    s = "--write-subs" ∨ s = "--sub-langs" ∨ s = subtitleLangFor si ∨
    s = "--sponsorblock-remove" ∨ s = "all" ∨ s = url := by
  simp only [buildArgs] at h
  rcases List.mem_append.mp h with h | h
  · rcases mem_ite_append h with h | h
    · rcases mem_ite_append h with h | h
      · by_cases hv : vi < 4
        · rw [if_pos hv] at h
          rcases List.mem_append.mp h with h | h
          · simp only [List.mem_cons, List.mem_singleton, List.not_mem_nil,
              or_false] at h
            tauto
          · simp only [List.mem_cons, List.mem_singleton, List.not_mem_nil,
              or_false] at h
            tauto
        · rw [if_neg hv] at h
          rcases List.mem_append.mp h with h | h
          · simp only [List.mem_cons, List.mem_singleton, List.not_mem_nil,
              or_false] at h
            tauto
          · simp only [List.mem_cons, List.mem_singleton, List.not_mem_nil,
              or_false] at h
            tauto
      · simp only [List.mem_cons, List.mem_singleton, List.not_mem_nil,
          or_false] at h
        tauto
    · simp only [List.mem_cons, List.mem_singleton, List.not_mem_nil,
        or_false] at h
      tauto
  · simp only [List.mem_singleton] at h
    tauto

/-! ## Claim theorems -/

/-- Claim C1 (code bug): the rendering contract is violated.  Processing the
trimmed lines progress(10.0), plain WARNING, progress(20.0) from a fresh
download state, the code's renderer overwrites the WARNING line with the
second progress line (the `hasProgressLine` flag is never cleared when a
plain line is appended), producing two lines, while the spec's rendering
contract produces three lines with the WARNING line preserved. -/
theorem C1_progress_overwrites_plainline :
    (processLines ⟨[], false, "Downloading...", false, true⟩
        ["[download]  10.0% of 5.00MiB", "WARNING: retrying",
         "[download]  20.0% of 5.00MiB"]).logLines
      = ["Progress: 10.0", "Progress: 20.0"] ∧
    specRender []
        ["[download]  10.0% of 5.00MiB", "WARNING: retrying",
         "[download]  20.0% of 5.00MiB"]
      = ["Progress: 10.0", "WARNING: retrying", "Progress: 20.0"] := by
  exact ⟨by decide, by decide⟩

/-- Claim C2: the Output Classifier returns a `ProgressUpdate` exactly when
the trimmed line contains a decimal number immediately followed by a
percent sign; the carried string is the capture of the first (leftmost)
such match; otherwise it returns a `PlainLine` with the full text.  The two
spec examples are included. -/
theorem C2_output_classifier :
    (∀ s : String,
      ((∃ p, classifyLine s = .ProgressUpdate p) ↔ HasDecimalPercent s.data) ∧
      (∀ p, classifyLine s = .ProgressUpdate p →
        ∃ pre d1 d2 suf, s.data = pre ++ d1 ++ '.' :: (d2 ++ '%' :: suf) ∧
          d1 ≠ [] ∧ d2 ≠ [] ∧
          (∀ c ∈ d1, c.isDigit = true) ∧ (∀ c ∈ d2, c.isDigit = true) ∧
          p = String.mk (d1 ++ '.' :: d2) ∧
          (∀ pre' d1' d2' suf',
            s.data = pre' ++ d1' ++ '.' :: (d2' ++ '%' :: suf') →
            d1' ≠ [] → d2' ≠ [] → (∀ c ∈ d1', c.isDigit = true) →
            (∀ c ∈ d2', c.isDigit = true) → pre.length ≤ pre'.length)) ∧
      (¬ HasDecimalPercent s.data → classifyLine s = .PlainLine s)) ∧
    classifyLine "[download]  45.6% of 10.00MiB" = .ProgressUpdate "45.6" ∧
    classifyLine "ERROR: unsupported URL" = .PlainLine "ERROR: unsupported URL" := by
  refine ⟨?_, by decide, by decide⟩
  intro s
  refine ⟨?_, ?_, ?_⟩
  · constructor
    · rintro ⟨p, hp⟩
      rw [hasDecimalPercent_iff]
      unfold classifyLine at hp
      cases hf : findPercent s.data with
      | none => rw [hf] at hp; exact absurd hp (by simp)
      | some m => simp [hf]
    · intro h
      rw [hasDecimalPercent_iff] at h
      obtain ⟨m, hm⟩ := Option.isSome_iff_exists.mp h
      exact ⟨String.mk m, by simp [classifyLine, hm]⟩
  · intro p hp
    unfold classifyLine at hp
    cases hf : findPercent s.data with
    | none => rw [hf] at hp; exact absurd hp (by simp)
    | some m =>
      rw [hf] at hp
      obtain ⟨pre, d1, d2, suf, he, h1, h2, hd1, hd2, hm, hmin⟩ :=
        findPercent_spec hf
      refine ⟨pre, d1, d2, suf, he, h1, h2, hd1, hd2, ?_, hmin⟩
      injection hp with hp
      rw [← hp, hm]
  · intro h
    rw [hasDecimalPercent_iff] at h
    have hf : findPercent s.data = none := by
      cases hfp : findPercent s.data with
      | none => rfl
      | some m => exact absurd (by simp [hfp]) h
    simp [classifyLine, hf]

/-- Witness for C2: the iff direction applied at the spec's example line. -/
theorem C2_output_classifier_witness :
    classifyLine "[download]  45.6% of 10.00MiB" = .ProgressUpdate "45.6" ∧
    HasDecimalPercent "[download]  45.6% of 10.00MiB".data :=
  ⟨C2_output_classifier.2.1,
   (C2_output_classifier.1 "[download]  45.6% of 10.00MiB").1.mp
     ⟨"45.6", C2_output_classifier.2.1⟩⟩

/-- Claim C3: when the pre-flight probe exits with a non-zero status, no
download process is spawned, the probe's standard-error text is appended
bracketed by separator lines, and the button is enabled with its idle
label. -/
theorem C3_probe_failure_aborts (st : UIState) (url savePath : String)
    (probe : ProbeResult) (uc : Bool) (vi ai si : Nat) (sb : Bool)
    (h : probe.exitCode ≠ 0) :
    (startDownload st url savePath probe uc vi ai si sb).spawnedArgs = none ∧
    (startDownload st url savePath probe uc vi ai si sb).ui.logLines
      = st.logLines ++
        [sepLine, "Failed to get metadata: " ++ probe.stderr, sepLine] ∧
    (startDownload st url savePath probe uc vi ai si sb).ui.buttonEnabled = true ∧
    (startDownload st url savePath probe uc vi ai si sb).ui.buttonText
      = "Download" := by
  simp [startDownload, h]

/-- Witness for C3 at a concrete failing probe. -/
theorem C3_probe_failure_aborts_witness :
    (startDownload ⟨[], false, "Download", true, false⟩ "u" "p"
        ⟨1, "boom", none⟩ false 0 0 0 false).spawnedArgs = none ∧
    (startDownload ⟨[], false, "Download", true, false⟩ "u" "p"
        ⟨1, "boom", none⟩ false 0 0 0 false).ui.buttonEnabled = true := by
  have h := C3_probe_failure_aborts ⟨[], false, "Download", true, false⟩
    "u" "p" ⟨1, "boom", none⟩ false 0 0 0 false (by decide)
  exact ⟨h.1, h.2.2.1⟩

/-- Claim C4: a probe result with more than one entry asks for confirmation
with the dialog text produced by the two sequential `arg` substitutions of
the declared title and the entry count (which, whenever the title contains
no place marker, is the plain text naming the title and the count);
declining spawns nothing and changes no state; a single item or a
one-entry list proceeds directly with no confirmation dialog. -/
theorem C4_multi_item_confirmation (st : UIState)
    (url savePath title stderrText : String) (uc : Bool) (vi ai si : Nat)
    (sb : Bool) (n : Nat) :
    (1 < n →
      (startDownload st url savePath ⟨0, stderrText, some ⟨title, some n⟩⟩
          uc vi ai si sb).confirmDialog = some (multiConfirmMessage title n) ∧
      (('%' : Char) ∉ title.data →
        multiConfirmMessage title n
          = "You are attempting to download " ++ (squote ++ (title ++ (squote ++
              (" with " ++ (toString n ++ " videos. Are you sure?")))))) ∧
      (uc = false →
        startDownload st url savePath ⟨0, stderrText, some ⟨title, some n⟩⟩
            uc vi ai si sb
          = ⟨st, none, some (multiConfirmMessage title n)⟩)) ∧
    ((startDownload st url savePath ⟨0, stderrText, some ⟨title, some 1⟩⟩
        uc vi ai si sb).confirmDialog = none ∧
      (startDownload st url savePath ⟨0, stderrText, some ⟨title, some 1⟩⟩
        uc vi ai si sb).spawnedArgs
        = some (buildArgs savePath url vi ai si sb)) ∧
    ((startDownload st url savePath ⟨0, stderrText, some ⟨title, none⟩⟩
        uc vi ai si sb).confirmDialog = none ∧
      (startDownload st url savePath ⟨0, stderrText, some ⟨title, none⟩⟩
        uc vi ai si sb).spawnedArgs
        = some (buildArgs savePath url vi ai si sb)) := by
  refine ⟨?_, ?_, ?_⟩
  · intro hn
    refine ⟨by cases uc <;> simp [startDownload, hn],
      fun hp => multiConfirmMessage_no_marker title n hp, ?_⟩
    intro huc
    subst huc
    simp [startDownload, hn]
  · simp [startDownload]
  · simp [startDownload]

/-- Witness for C4: a three-entry playlist with a marker-free title,
declined by the user. -/
theorem C4_multi_item_confirmation_witness :
    (startDownload ⟨[], false, "Download", true, false⟩ "u" "p"
        ⟨0, "", some ⟨"My list", some 3⟩⟩ false 0 0 0 false)
      = ⟨⟨[], false, "Download", true, false⟩, none,
          some (multiConfirmMessage "My list" 3)⟩ ∧
    multiConfirmMessage "My list" 3
      = "You are attempting to download " ++ (squote ++ ("My list" ++ (squote ++
          (" with " ++ (toString 3 ++ " videos. Are you sure?"))))) ∧
    (startDownload ⟨[], false, "Download", true, false⟩ "u" "p"
        ⟨0, "", some ⟨"One", some 1⟩⟩ false 0 0 0 false).confirmDialog
      = none := by
  have h := C4_multi_item_confirmation ⟨[], false, "Download", true, false⟩
    "u" "p" "My list" "" false 0 0 0 false 3
  have h1 := C4_multi_item_confirmation ⟨[], false, "Download", true, false⟩
    "u" "p" "One" "" false 0 0 0 false 1
  exact ⟨(h.1 (by decide)).2.2 rfl, (h.1 (by decide)).2.1 (by decide),
    h1.2.1.1⟩

/-- Claim C5: every failure path — probe failure, unparsable probe metadata,
process spawn error, non-zero download exit — leaves the button enabled
with its idle label and the process handle released. -/
theorem C5_failure_paths_ready (st : UIState) (url savePath errStr : String)
    (probe : ProbeResult) (uc : Bool) (vi ai si : Nat) (sb : Bool)
    (code : Int) :
    (probe.exitCode ≠ 0 → st.processActive = false →
      ReadyForRetry (startDownload st url savePath probe uc vi ai si sb).ui) ∧
    (probe.json = none → st.processActive = false →
      ReadyForRetry (startDownload st url savePath probe uc vi ai si sb).ui) ∧
    ReadyForRetry (processError st errStr) ∧
    (code ≠ 0 → ReadyForRetry (processFinished st code)) := by
  refine ⟨?_, ?_, ?_, ?_⟩
  · intro h hp
    simp [startDownload, h, ReadyForRetry, hp]
  · intro hj hp
    by_cases he : probe.exitCode = 0
    · simp [startDownload, he, hj, ReadyForRetry, hp]
    · simp [startDownload, he, ReadyForRetry, hp]
  · simp [processError, ReadyForRetry]
  · intro hc
    simp [processFinished, ReadyForRetry]

/-- Witness for C5 at concrete failing inputs. -/
theorem C5_failure_paths_ready_witness :
    ReadyForRetry (startDownload ⟨[], false, "Download", true, false⟩ "u" "p"
        ⟨1, "boom", none⟩ false 0 0 0 false).ui ∧
    ReadyForRetry (startDownload ⟨[], false, "Download", true, false⟩ "u" "p"
        ⟨0, "", none⟩ false 0 0 0 false).ui ∧
    ReadyForRetry (processError ⟨[], false, "Downloading...", false, true⟩ "no exe") ∧
    ReadyForRetry (processFinished ⟨[], false, "Downloading...", false, true⟩ 1) := by
  have h := C5_failure_paths_ready ⟨[], false, "Download", true, false⟩
    "u" "p" "no exe" ⟨1, "boom", none⟩ false 0 0 0 false 1
  have h0 := C5_failure_paths_ready ⟨[], false, "Download", true, false⟩
    "u" "p" "x" ⟨0, "", none⟩ false 0 0 0 false 1
  have hE := C5_failure_paths_ready ⟨[], false, "Downloading...", false, true⟩
    "u" "p" "no exe" ⟨1, "", none⟩ false 0 0 0 false 1
  exact ⟨h.1 (by decide) rfl, h0.2.1 rfl rfl, hE.2.2.1, hE.2.2.2 (by decide)⟩

/-- Counterexample to C6 as stated: a request whose URL is the literal
string "-x" yields an argument list containing both "-x" (the final URL
token) and "-f" (the video branch), so over all nonempty-string requests
the claim fails. -/
theorem C6_counterexample :
    "-x" ∈ buildArgs "/tmp/videos" "-x" 0 0 0 false ∧
    "-f" ∈ buildArgs "/tmp/videos" "-x" 0 0 0 false := by
  exact ⟨by decide, by decide⟩

/-- Claim C6 (amended): for every request whose URL is not itself one of
the literal flag strings "-x" or "-f", the argument list never contains
both the audio-extraction flag and the video-format flag. -/
theorem C6_no_flag_mix (savePath url : String) (vi ai si : Nat) (sb : Bool)
    (hx : url ≠ "-x") (hf : url ≠ "-f") :
    ¬("-x" ∈ buildArgs savePath url vi ai si sb ∧
      "-f" ∈ buildArgs savePath url vi ai si sb) := by
  rintro ⟨hmx, hmf⟩
  rcases mem_buildArgs hmx with h | h | ⟨hv, h⟩ | ⟨hv, h⟩ | h | h | h | h | h | h
  · exact absurd h (by decide)
  · exact outputTemplate_ne savePath "-x" (by decide) h.symm
  · rcases h with h | h | h | h
    · exact absurd h (by decide)
    · exact (videoFormatFor_ne_flag vi).1 h.symm
    · exact absurd h (by decide)
    · exact absurd h (by decide)
  · rcases mem_buildArgs hmf with g | g | ⟨gv, g⟩ | ⟨gv, g⟩ | g | g | g | g | g | g
    · exact absurd g (by decide)
    · exact outputTemplate_ne savePath "-f" (by decide) g.symm
    · exact hv gv
    · rcases g with g | g | g | g | g
      · exact absurd g (by decide)
      · exact absurd g (by decide)
      · exact absurd g (by decide)
      · exact absurd g (by decide)
      · exact (audioQualityFor_ne_flag ai).2 g.symm
    · exact absurd g (by decide)
    · exact absurd g (by decide)
    · exact (subtitleLangFor_ne_flag si).2 g.symm
    · exact absurd g (by decide)
    · exact absurd g (by decide)
    · exact hf g.symm
  · exact absurd h (by decide)
  · exact absurd h (by decide)
  · exact (subtitleLangFor_ne_flag si).1 h.symm
  · exact absurd h (by decide)
  · exact absurd h (by decide)
  · exact hx h.symm

/-- Witness for the amended C6 at a concrete request. -/
theorem C6_no_flag_mix_witness :
    (("http://example" : String) ≠ "-x" ∧ ("http://example" : String) ≠ "-f") ∧
    ¬("-x" ∈ buildArgs "/v" "http://example" 0 0 0 false ∧
      "-f" ∈ buildArgs "/v" "http://example" 0 0 0 false) :=
  ⟨⟨by decide, by decide⟩,
   C6_no_flag_mix "/v" "http://example" 0 0 0 false (by decide) (by decide)⟩

/-- Claim C7: for each of the four video tiers the translator emits `-f`
with a format expression whose height cap is the documented pixel value
(2160/1080/720/480). -/
theorem C7_tier_height_caps (savePath url : String) (ai si : Nat) (sb : Bool)
    (i : Nat) (h : i < 4) :
    (buildArgs savePath url i ai si sb).getD 2 "" = "-f" ∧
    (buildArgs savePath url i ai si sb).getD 3 ""
      = "bestvideo[height<=" ++ toString (tierHeightCap i) ++
        "]+bestaudio/best" := by
  interval_cases i <;> unfold buildArgs <;> split_ifs <;> exact ⟨rfl, rfl⟩

/-- Witness for C7 at the 720p tier. -/
theorem C7_tier_height_caps_witness :
    (buildArgs "/v" "u" 2 0 0 false).getD 3 ""
      = "bestvideo[height<=" ++ toString (tierHeightCap 2) ++
        "]+bestaudio/best" :=
  (C7_tier_height_caps "/v" "u" 0 0 false 2 (by decide)).2

/-- Claim C8: the AudioOnly choice emits `-x --audio-format mp3
--audio-quality <N>` where `<N>` is the numeric value of the chosen
bitrate; with the "256kbps" choice the quality argument is exactly
"256". -/
theorem C8_audio_only_args (savePath url : String) (si : Nat) (sb : Bool) :
    (∀ ai, ai < 3 →
      (buildArgs savePath url 4 ai si sb).getD 2 "" = "-x" ∧
      (buildArgs savePath url 4 ai si sb).getD 3 "" = "--audio-format" ∧
      (buildArgs savePath url 4 ai si sb).getD 4 "" = "mp3" ∧
      (buildArgs savePath url 4 ai si sb).getD 5 "" = "--audio-quality" ∧
      (buildArgs savePath url 4 ai si sb).getD 6 ""
        = toString (audioBitrateValue ai)) ∧
    audioQualityItems.getD 1 "" = "256kbps" ∧
    (buildArgs savePath url 4 1 si sb).getD 6 "" = "256" := by
  refine ⟨?_, by decide, ?_⟩
  · intro ai hai
    interval_cases ai <;> unfold buildArgs <;> split_ifs <;>
      first
      | exact ⟨rfl, rfl, rfl, rfl, rfl⟩
      | (exfalso; omega)
  · unfold buildArgs
    split_ifs <;>
      first
      | rfl
      | (exfalso; omega)

/-- Witness for C8 at the 256kbps choice. -/
theorem C8_audio_only_args_witness :
    (buildArgs "/v" "u" 4 1 0 false).getD 5 "" = "--audio-quality" ∧
    (buildArgs "/v" "u" 4 1 0 false).getD 6 ""
      = toString (audioBitrateValue 1) := by
  have h := (C8_audio_only_args "/v" "u" 0 false).1 1 (by decide)
  exact ⟨h.2.2.2.1, h.2.2.2.2⟩

/-- Claim C9: a trimmed line containing an integer percentage (digits
immediately followed by a percent sign) but no digits-dot-digits substring
followed by a percent sign is classified as a `PlainLine`: the pattern
requires a fractional part. -/
theorem C9_integer_percent_plainline (s : String)
    (h1 : HasIntPercent s.data) (h2 : ¬ HasDecimalPercent s.data) :
    classifyLine s = .PlainLine s := by
  have hf : findPercent s.data = none := by
    cases hfp : findPercent s.data with
    | none => rfl
    | some m =>
      exact absurd ((hasDecimalPercent_iff s.data).mpr (by simp [hfp])) h2
  simp [classifyLine, hf]

/-- Witness for C9 at the integer-percentage example line. -/
theorem C9_integer_percent_plainline_witness :
    classifyLine "[download] 45% of 10MiB"
      = .PlainLine "[download] 45% of 10MiB" :=
  C9_integer_percent_plainline "[download] 45% of 10MiB"
    ⟨"[download] ".data, ['4', '5'], " of 10MiB".data, by decide, by decide,
      by decide⟩
    (fun h => absurd ((hasDecimalPercent_iff _).mp h) (by decide))

/-- Claim C10: when the video quality is one of the four video tiers (not
AudioOnly), the audio-bitrate choice has no effect on the argument list. -/
theorem C10_bitrate_noninterference (savePath url : String)
    (vi ai ai' si : Nat) (sb : Bool) (h : vi < 4) :
    buildArgs savePath url vi ai si sb = buildArgs savePath url vi ai' si sb := by
  simp only [buildArgs, if_pos h]

/-- Witness for C10 with bitrate choices 320kbps and 128kbps at tier 4K. -/
theorem C10_bitrate_noninterference_witness :
    buildArgs "/v" "u" 0 0 0 false = buildArgs "/v" "u" 0 2 0 false :=
  C10_bitrate_noninterference "/v" "u" 0 0 2 0 false (by decide)

end YtDlpGui
